import Mathlib

/-!
Verification of the relevance-ranking and result-shaping core of the
`us-legal-mcp` server (`src/index.ts` / `us-legal-apis.ts`).

Strings are modelled as `List Char` (`Str`).  JavaScript values that may be
`undefined` are modelled as `Option`; JS falsiness of `""` and `0` is modelled
explicitly where the source relies on it.  HTTP traffic is modelled by an
outcome parameter: the request-building code (query params, API keys, page
sizes sent upstream) only shapes the outgoing request, so the upstream
response enters each adapter as an explicit `Fetch` argument, with `failure`
standing for a rejected axios promise (timeout, connection refused, non-2xx
status outside `validateStatus`, ...).
-/

/-- Strings as character lists. -/
abbrev Str := List Char

/-- Lowercasing, modelling `String.prototype.toLowerCase` on the ASCII
fragment (`Char.toLower` lowers only A–Z, as the source's data is ASCII). -/
def lowerStr (s : Str) : Str := s.map Char.toLower

/-- Splitting helper for `splitWs`. -/
def splitWsAux (acc : Str) : Str → List Str
  | [] => [acc.reverse]
  | c :: rest =>
    if c.isWhitespace then acc.reverse :: splitWsAux [] rest
    else splitWsAux (c :: acc) rest

/-- Whitespace split modelling `query.split(/\s+/)`.  This version emits an
empty token between consecutive whitespace characters where the JS regex
collapses runs, but every caller immediately filters tokens by
`length > 2`, so the two behaviours agree after that filter. -/
def splitWs (s : Str) : List Str := splitWsAux [] s

/-- Boolean prefix test on character lists. -/
def isPrefixChars : Str → Str → Bool
  | [], _ => true
  | _ :: _, [] => false
  | a :: as, b :: bs => a == b && isPrefixChars as bs

/-- Substring containment, modelling `String.prototype.includes`. -/
def strContains (pat : Str) : Str → Bool
  | [] => isPrefixChars pat []
  | c :: rest => isPrefixChars pat (c :: rest) || strContains pat rest

/-- Fuel-driven scan for `countOcc`.  The fuel starts at the text length and
strictly exceeds the number of characters still to be scanned, so the
`fuel = 0` base case is never reached with text remaining. -/
def countOccAux (pat : Str) : Nat → Str → Nat
  | 0, _ => 0
  | _, [] => 0
  | fuel + 1, c :: rest =>
    if pat ≠ [] ∧ isPrefixChars pat (c :: rest) = true then
      countOccAux pat fuel (List.drop (pat.length - 1) rest) + 1
    else
      countOccAux pat fuel rest

/-- Number of non-overlapping, left-to-right occurrences of `pat` in `text`:
the match count `text.match(new RegExp(pat, "g")).length` produces for a
pattern that contains no regex metacharacter (a literal pattern). -/
def countOcc (pat text : Str) : Nat := countOccAux pat text.length text

/-- Decimal digits of a natural number, fuel-driven so it reduces in the
kernel (`fuel = n + 1` always suffices). -/
def natToCharsAux : Nat → Nat → Str
  | 0, _ => []
  | fuel + 1, n =>
    if n < 10 then [Char.ofNat (48 + n)]
    else natToCharsAux fuel (n / 10) ++ [Char.ofNat (48 + n % 10)]

/-- Decimal rendering of a natural number. -/
def natToChars (n : Nat) : Str := natToCharsAux (n + 1) n

/-- Decimal rendering of an integer, as a JS template literal renders an
integral number. -/
def intToChars : Int → Str
  | Int.ofNat n => natToChars n
  | Int.negSucc n => '-' :: natToChars (n + 1)

/-- Characters that are metacharacters of JS regular expressions, by
character code: dollar 36, parens 40 41, star 42, plus 43, dot 46, question
mark 63, square brackets 91 93, backslash 92, caret 94, braces 123 125,
pipe 124. -/
def regexMeta (c : Char) : Bool :=
  c.toNat ∈ [36, 40, 41, 42, 43, 46, 63, 91, 92, 93, 94, 123, 124, 125]

/-- A pattern free of regex metacharacters: `new RegExp(pat, "g")` compiles
and matches `pat` literally. -/
def regexSafe (t : Str) : Bool := t.all (fun c => !(regexMeta c))

/-- Outcome of evaluating `(text.match(new RegExp(pat, "g")) || []).length`
in the source: either a match count or a thrown `SyntaxError`. -/
inductive RegexCount where
  | throws : RegexCount
  | counts : Nat → RegexCount
deriving DecidableEq

/-- Modelled fragment of the JS regex engine used by the scorer.  A
metacharacter-free pattern compiles to a literal matcher whose global match
count is `countOcc` — exact for JS.  Patterns containing a metacharacter
are collapsed to `throws`: exact for syntactically invalid patterns (every
concrete metacharacter pattern a theorem in this file evaluates has
unmatched parentheses, for which `new RegExp` does throw a `SyntaxError`),
but an over-approximation of failure for metacharacter patterns that are
valid regexes, which JS counts under regex semantics.  Accordingly, a
hypothesis or conclusion of the form `... = some ...` confines a theorem
to the metacharacter-free region where the model is exact, the `throws`
branch is relied on only at genuinely invalid concrete patterns, and no
theorem asserts anything about valid metacharacter patterns. -/
def jsRegexGCount (pat text : Str) : RegexCount :=
  if regexSafe pat then RegexCount.counts (countOcc pat text) else RegexCount.throws

/-- Lower-cased whitespace-split query terms of length greater than 2,
modelling `query.toLowerCase().split(/\s+/).filter(term => term.length > 2)`
(lowercasing commutes with whitespace splitting, so lowering first is
equivalent to the source's order). -/
def queryTermsOf (query : Str) : List Str :=
  (splitWs (lowerStr query)).filter (fun t => 2 < t.length)

/-- Per-term loop of `calculateRelevanceScore` (src/index.ts lines 650-658):
for each term contained in the text it adds `min(occurrences, 3)` and bumps
the matched-term counter; `none` models the `SyntaxError` thrown by
`new RegExp(term, "g")` escaping the loop. -/
def scoreLoop (lowerText : Str) : List Str → Option (Int × Nat)
  | [] => some (0, 0)
  | t :: ts =>
    if strContains t lowerText then
      match jsRegexGCount t lowerText with
      | RegexCount.throws => none
      | RegexCount.counts n =>
        match scoreLoop lowerText ts with
        | none => none
        | some (s, m) => some (((min n 3 : Nat) : Int) + s, m + 1)
    else scoreLoop lowerText ts

/-- Embedding of `calculateRelevanceScore` (src/index.ts lines 634-665).
Returns `none` when the source would throw (invalid regex built from a
query term).  The source accumulates exact-match bonus, per-term
contributions and the completeness bonus by repeated `score +=`; the sum
below adds the same summands. -/
def calculateRelevanceScore (text query : Str) : Option Int :=
  if text = [] ∨ query = [] then some 0
  else
    let lowerText := lowerStr text
    let queryTerms := queryTermsOf query
    if queryTerms = [] then some 0
    else
      match scoreLoop lowerText queryTerms with
      | none => none
      | some (s, m) =>
        some ((if strContains (lowerStr query) lowerText then 10 else 0)
          + s
          + (if m = queryTerms.length then 5 else 0))

/-- Contribution of one query term to the term loop of
`calculateRelevanceScore`: `min(occurrences, 3)` when the term occurs in the
text, `0` otherwise. -/
def termContribution (lowerText t : Str) : Int :=
  if strContains t lowerText then ((min (countOcc t lowerText) 3 : Nat) : Int) else 0

/-- The fields of its argument that `scoreBillRelevance` reads:
`bill.title`, `bill.shortTitle`, `bill.summary?.text`,
`bill.latestAction?.text` and `bill.subjects`.  `summaryText` is the value
of the expression `bill.summary?.text`; subject entries are modelled
post-coercion as their name strings (the source accepts both a string entry
and an object entry read through `subject.name`). -/
structure ScoringBill where
  title : Option Str
  shortTitle : Option Str
  summaryText : Option Str
  latestActionText : Option Str
  subjects : Option (List Str)
deriving DecidableEq

/-- Scoring of one optional text field guarded by JS truthiness
(`if (bill.title) ...`).  An absent field contributes 0; an empty string is
falsy in JS and skipped, and `calculateRelevanceScore` returns `some 0` on
empty text anyway, so passing it through is equivalent. -/
def fieldScore (txt : Option Str) (query : Str) : Option Int :=
  match txt with
  | none => some 0
  | some t => calculateRelevanceScore t query

/-- Number of subject tags containing at least one query term as a
substring (src/index.ts lines 695-709: the inner loop over terms breaks
after the first hit, so each tag counts at most once). -/
def subjectMatchCount (queryTerms : List Str) (subs : List Str) : Nat :=
  (subs.filter (fun subj => queryTerms.any (fun t => strContains t (lowerStr subj)))).length

/-- Embedding of `scoreBillRelevance` (src/index.ts lines 667-712): title
and short title weighted 4, summary text weighted 2, latest-action text
weighted 1.5, plus a flat 20 per subject tag that contains some query term.
`none` models a `SyntaxError` thrown by one of the field scorings. -/
def scoreBillRelevance (bill : ScoringBill) (query : Str) : Option ℚ :=
  let queryTerms := queryTermsOf query
  match fieldScore bill.title query, fieldScore bill.shortTitle query,
        fieldScore bill.summaryText query, fieldScore bill.latestActionText query with
  | some t, some st, some su, some la =>
    some ((t : ℚ) * 4 + (st : ℚ) * 4 + (su : ℚ) * 2 + (la : ℚ) * (3 / 2)
      + (match bill.subjects with
         | none => 0
         | some subs =>
           if queryTerms = [] then 0
           else (subjectMatchCount queryTerms subs : ℚ) * 20))
  | _, _, _, _ => none

/-- The fields of its argument that `scoreDocumentRelevance` reads. -/
structure ScoringDoc where
  title : Option Str
  abstract : Option Str
  agency_names : Option (List Str)
deriving DecidableEq

/-- Number of agency names containing at least one query term. -/
def agencyMatchCount (queryTerms : List Str) (agencies : List Str) : Nat :=
  (agencies.filter (fun agency => queryTerms.any (fun t => strContains t (lowerStr agency)))).length

/-- Embedding of `scoreDocumentRelevance` (src/index.ts lines 714-744):
title weighted 3, abstract weighted 2, plus a flat 10 per agency name
containing some query term.  All weights are integral, so the score stays
in ℤ. -/
def scoreDocumentRelevance (doc : ScoringDoc) (query : Str) : Option Int :=
  match fieldScore doc.title query, fieldScore doc.abstract query with
  | some t, some a =>
    some (t * 3 + a * 2
      + (match doc.agency_names with
         | none => 0
         | some ags => 10 * (agencyMatchCount (queryTermsOf query) ags : Int)))
  | _, _ => none

/-! ### Canonical records and raw upstream payloads

Raw payload structures mirror the fields each normalizer reads from the
upstream JSON; every field is optional (payload drift never throws on a
missing field because the source reads them with plain or optional
chaining).  Canonical structures mirror the TypeScript interfaces, with
every field optional because the source performs no runtime checks. -/

/-- Raw `bill.summary` object (read as `bill.summary?.text`). -/
structure RawSummary where
  text : Option Str
deriving DecidableEq

/-- Raw and canonical `latestAction` object. -/
structure BillAction where
  actionDate : Option Str
  text : Option Str
deriving DecidableEq

/-- Raw and canonical sponsor identity. -/
structure BillSponsor where
  bioguideId : Option Str
  firstName : Option Str
  lastName : Option Str
  party : Option Str
  state : Option Str
deriving DecidableEq

/-- Raw bill as read by the Congress normalizers.  Subject entries are
modelled post-coercion as their name strings: `searchBills` reads them as
`s.name || s` and the other two bill methods as `s.name`, both of which
reduce to the name string on the object-shaped entries the upstream
returns. -/
structure RawBill where
  congress : Option Int
  type : Option Str
  number : Option Int
  title : Option Str
  shortTitle : Option Str
  summary : Option RawSummary
  url : Option Str
  introducedDate : Option Str
  latestAction : Option BillAction
  subjects : Option (List Str)
  sponsors : Option (List BillSponsor)
deriving DecidableEq

/-- Canonical bill record (TypeScript interface `CongressBill`). -/
structure CongressBill where
  congress : Option Int
  type : Option Str
  number : Option Int
  title : Option Str
  shortTitle : Option Str
  summary : Option Str
  url : Option Str
  introducedDate : Option Str
  latestAction : Option BillAction
  subjects : Option (List Str)
  sponsors : Option (List BillSponsor)
deriving DecidableEq

/-- Bill normalization shared by `searchBills` (src/index.ts lines 907-930),
`getBillDetails` and `getRecentBills` (identical field maps): `summary`
becomes `bill.summary?.text`, `latestAction` is rebuilt when present, the
remaining fields are copied. -/
def normalizeBill (b : RawBill) : CongressBill :=
  { congress := b.congress
    type := b.type
    number := b.number
    title := b.title
    shortTitle := b.shortTitle
    summary := b.summary.bind RawSummary.text
    url := b.url
    introducedDate := b.introducedDate
    latestAction := b.latestAction.map (fun la => { actionDate := la.actionDate, text := la.text })
    subjects := b.subjects
    sponsors := b.sponsors.map (List.map (fun s =>
      { bioguideId := s.bioguideId, firstName := s.firstName, lastName := s.lastName,
        party := s.party, state := s.state })) }

/-- View of a normalized `CongressBill` through the fields
`scoreBillRelevance` reads.  The normalized `summary` is a plain string, so
the scorer's `bill.summary?.text` is `undefined` on it — inside the
`searchBills` pipeline the summary weight is dead code — hence
`summaryText := none`. -/
def toScoringBill (b : CongressBill) : ScoringBill :=
  { title := b.title
    shortTitle := b.shortTitle
    summaryText := none
    latestActionText := b.latestAction.bind BillAction.text
    subjects := b.subjects }

/-- Raw and canonical (subsection title, content) pair of a Federal
Register document. -/
structure DocSection where
  title : Option Str
  content : Option Str
deriving DecidableEq

/-- Raw Federal Register document as read by the normalizers. -/
structure RawFRDoc where
  document_number : Option Str
  title : Option Str
  abstract : Option Str
  publication_date : Option Str
  effective_date : Option Str
  agency_names : Option (List Str)
  document_type : Option Str
  pdf_url : Option Str
  html_url : Option Str
  json_url : Option Str
  sections : Option (List DocSection)
deriving DecidableEq

/-- Canonical document record (TypeScript interface
`FederalRegisterDocument`). -/
structure FRDocument where
  document_number : Option Str
  title : Option Str
  abstract : Option Str
  publication_date : Option Str
  effective_date : Option Str
  agency_names : Option (List Str)
  document_type : Option Str
  pdf_url : Option Str
  html_url : Option Str
  json_url : Option Str
  sections : Option (List DocSection)
deriving DecidableEq

/-- Document normalization used by `searchDocuments` and
`getRecentDocuments` (field-by-field copy; the object literal has no
`sections` key, so the canonical optional field is absent). -/
def normalizeFRDoc (d : RawFRDoc) : FRDocument :=
  { document_number := d.document_number
    title := d.title
    abstract := d.abstract
    publication_date := d.publication_date
    effective_date := d.effective_date
    agency_names := d.agency_names
    document_type := d.document_type
    pdf_url := d.pdf_url
    html_url := d.html_url
    json_url := d.json_url
    sections := none }

/-- Document normalization used by `getDocumentDetails`, which additionally
maps `sections`. -/
def normalizeFRDocDetail (d : RawFRDoc) : FRDocument :=
  { normalizeFRDoc d with
    sections := d.sections.map (List.map (fun s => { title := s.title, content := s.content })) }

/-- View of a normalized `FRDocument` through the fields
`scoreDocumentRelevance` reads (these fields are copied unchanged by the
normalizer, so there is no analogue of the bill-summary quirk). -/
def toScoringDoc (d : FRDocument) : ScoringDoc :=
  { title := d.title, abstract := d.abstract, agency_names := d.agency_names }

/-- Raw and canonical US Code section (TypeScript interface
`USCodeSection`; `section` is a string identifier). -/
structure USCodeSection where
  title : Option Int
  «section» : Option Str
  text : Option Str
  url : Option Str
  last_updated : Option Str
  source : Option Str
deriving DecidableEq

/-- Section normalization used by `searchCode` and `getSection`
(field-by-field copy). -/
def normalizeCodeSection (s : USCodeSection) : USCodeSection :=
  { title := s.title, «section» := s.«section», text := s.text, url := s.url,
    last_updated := s.last_updated, source := s.source }

/-- Attributes object of a raw Regulations.gov comment. -/
structure RawCommentAttrs where
  comment : Option Str
  postedDate : Option Str
  agencyId : Option Str
  documentId : Option Str
  submitterName : Option Str
  organization : Option Str
deriving DecidableEq

/-- Raw Regulations.gov comment.  The normalizer reads
`comment.attributes.comment` without optional chaining, so a missing
`attributes` object throws a `TypeError` (modelled by `attributes = none`
making normalization fail). -/
structure RawComment where
  id : Option Str
  attributes : Option RawCommentAttrs
deriving DecidableEq

/-- Canonical comment record (TypeScript interface `RegulationComment`). -/
structure RegulationComment where
  id : Option Str
  comment : Option Str
  posted_date : Option Str
  agency_id : Option Str
  document_id : Option Str
  submitter_name : Option Str
  organization : Option Str
deriving DecidableEq

/-- Comment normalization used by `searchComments`; `none` models the
`TypeError` thrown when `attributes` is absent. -/
def normalizeComment (c : RawComment) : Option RegulationComment :=
  c.attributes.map (fun a =>
    { id := c.id, comment := a.comment, posted_date := a.postedDate,
      agency_id := a.agencyId, document_id := a.documentId,
      submitter_name := a.submitterName, organization := a.organization })

/-- Raw court opinion as read by the CourtListener normalizers, carrying
both historical field-naming conventions. -/
structure RawOpinion where
  id : Option Int
  caseName : Option Str
  case_name : Option Str
  caseNameFull : Option Str
  case_name_full : Option Str
  dateFiled : Option Str
  date_filed : Option Str
  dateModified : Option Str
  date_modified : Option Str
  court : Option Str
  court_name : Option Str
  courtId : Option Int
  court_id : Option Int
  jurisdiction : Option Str
  citation : Option Str
  citationCount : Option Int
  citation_count : Option Int
  precedentialStatus : Option Str
  precedential_status : Option Str
  absoluteUrl : Option Str
  absolute_url : Option Str
  downloadUrl : Option Str
  download_url : Option Str
  plainText : Option Str
  plain_text : Option Str
  html : Option Str
  htmlLawbox : Option Str
  html_lawbox : Option Str
  htmlColumbia : Option Str
  html_columbia : Option Str
  htmlAnon2020 : Option Str
  html_anon_2020 : Option Str
  judges : Option (List Str)
  docket : Option Str
  docketNumber : Option Str
  docket_number : Option Str
  slug : Option Str
deriving DecidableEq

/-- Canonical court-opinion record (TypeScript interface `CourtOpinion`). -/
structure CourtOpinion where
  id : Option Int
  case_name : Option Str
  case_name_full : Option Str
  date_filed : Option Str
  date_modified : Option Str
  court : Option Str
  court_id : Option Int
  jurisdiction : Option Str
  citation : Option Str
  citation_count : Option Int
  precedential_status : Option Str
  url : Option Str
  absolute_url : Option Str
  download_url : Option Str
  plain_text : Option Str
  html : Option Str
  html_lawbox : Option Str
  html_columbia : Option Str
  html_anon_2020 : Option Str
  judges : Option (List Str)
  docket : Option Str
  docket_number : Option Str
  slug : Option Str
deriving DecidableEq

/-- JS truthiness of an optional string: absent and `""` are falsy. -/
def strTruthy : Option Str → Bool
  | none => false
  | some s => !s.isEmpty

/-- JS truthiness of an optional number: absent and `0` are falsy. -/
def intTruthy : Option Int → Bool
  | none => false
  | some n => n != 0

/-- JS `a || b` on optional strings: yields `a` when truthy, otherwise `b`
verbatim (so `"" || ""` is `""` and `"" || undefined` is `undefined`). -/
def jsOrStr (a b : Option Str) : Option Str := if strTruthy a then a else b

/-- JS `a || b` on optional numbers. -/
def jsOrInt (a b : Option Int) : Option Int := if intTruthy a then a else b

/-- Synthesized opinion URL `https://www.courtlistener.com/opinion/<id>/`. -/
def opinionUrlOf (i : Int) : Str :=
  "https://www.courtlistener.com/opinion/".data ++ intToChars i ++ "/".data

/-- The `absoluteUrl` expression of the opinion normalizers (src/index.ts
lines 1417-1422): `opinion.absoluteUrl || opinion.absolute_url ||
(opinion.id ? urlFromId : undefined)`. -/
def synthAbsoluteUrl (o : RawOpinion) : Option Str :=
  jsOrStr o.absoluteUrl (jsOrStr o.absolute_url
    (match o.id with
     | some i => if i != 0 then some (opinionUrlOf i) else none
     | none => none))

/-- Opinion normalization shared verbatim by `searchOpinions` (src/index.ts
lines 1416-1448) and `getRecentOpinions` (lines 1488-1521): each dual-named
field falls back from the camelCase to the snake_case convention with JS
`||`, and both `url` and `absolute_url` are the `synthAbsoluteUrl`
expression. -/
def normalizeOpinion (o : RawOpinion) : CourtOpinion :=
  { id := o.id
    case_name := jsOrStr o.caseName o.case_name
    case_name_full := jsOrStr o.caseNameFull o.case_name_full
    date_filed := jsOrStr o.dateFiled o.date_filed
    date_modified := jsOrStr o.dateModified o.date_modified
    court := jsOrStr o.court o.court_name
    court_id := jsOrInt o.courtId o.court_id
    jurisdiction := o.jurisdiction
    citation := o.citation
    citation_count := jsOrInt o.citationCount o.citation_count
    precedential_status := jsOrStr o.precedentialStatus o.precedential_status
    url := synthAbsoluteUrl o
    absolute_url := synthAbsoluteUrl o
    download_url := jsOrStr o.downloadUrl o.download_url
    plain_text := jsOrStr o.plainText o.plain_text
    html := o.html
    html_lawbox := jsOrStr o.htmlLawbox o.html_lawbox
    html_columbia := jsOrStr o.htmlColumbia o.html_columbia
    html_anon_2020 := jsOrStr o.htmlAnon2020 o.html_anon_2020
    judges := o.judges
    docket := o.docket
    docket_number := jsOrStr o.docketNumber o.docket_number
    slug := o.slug }

/-- Opinion normalization used by `getOpinion` (src/index.ts lines
1548-1572), which reads only the camelCase convention and performs no URL
synthesis. -/
def normalizeOpinionCamel (o : RawOpinion) : CourtOpinion :=
  { id := o.id
    case_name := o.caseName
    case_name_full := o.caseNameFull
    date_filed := o.dateFiled
    date_modified := o.dateModified
    court := o.court
    court_id := o.courtId
    jurisdiction := o.jurisdiction
    citation := o.citation
    citation_count := o.citationCount
    precedential_status := o.precedentialStatus
    url := o.absoluteUrl
    absolute_url := o.absoluteUrl
    download_url := o.downloadUrl
    plain_text := o.plainText
    html := o.html
    html_lawbox := o.htmlLawbox
    html_columbia := o.htmlColumbia
    html_anon_2020 := o.htmlAnon2020
    judges := o.judges
    docket := o.docket
    docket_number := o.docketNumber
    slug := o.slug }

/-- Raw congressional vote member entry (`m.member` may be absent; the
normalizer reads its fields with optional chaining). -/
structure RawVoteMember where
  member : Option BillSponsor
  votePosition : Option Str
deriving DecidableEq

/-- Normalized vote member entry: the `member` object is always built. -/
structure VoteMember where
  member : BillSponsor
  votePosition : Option Str
deriving DecidableEq

/-- Raw congressional vote. -/
structure RawVote where
  rollNumber : Option Int
  url : Option Str
  voteDate : Option Str
  voteQuestion : Option Str
  voteResult : Option Str
  voteTitle : Option Str
  voteType : Option Str
  chamber : Option Str
  congress : Option Int
  session : Option Int
  members : Option (List RawVoteMember)
deriving DecidableEq

/-- Canonical vote record (TypeScript interface `CongressVote`). -/
structure CongressVote where
  rollNumber : Option Int
  url : Option Str
  voteDate : Option Str
  voteQuestion : Option Str
  voteResult : Option Str
  voteTitle : Option Str
  voteType : Option Str
  chamber : Option Str
  congress : Option Int
  session : Option Int
  members : Option (List VoteMember)
deriving DecidableEq

/-- Vote normalization used by `searchVotes`. -/
def normalizeVote (v : RawVote) : CongressVote :=
  { rollNumber := v.rollNumber
    url := v.url
    voteDate := v.voteDate
    voteQuestion := v.voteQuestion
    voteResult := v.voteResult
    voteTitle := v.voteTitle
    voteType := v.voteType
    chamber := v.chamber
    congress := v.congress
    session := v.session
    members := v.members.map (List.map (fun m =>
      { member :=
          { bioguideId := m.member.bind BillSponsor.bioguideId
            firstName := m.member.bind BillSponsor.firstName
            lastName := m.member.bind BillSponsor.lastName
            party := m.member.bind BillSponsor.party
            state := m.member.bind BillSponsor.state }
        votePosition := m.votePosition })) }

/-- Raw and canonical subcommittee entry. -/
structure Subcommittee where
  systemCode : Option Str
  name : Option Str
  url : Option Str
deriving DecidableEq

/-- Raw committee. -/
structure RawCommittee where
  systemCode : Option Str
  name : Option Str
  url : Option Str
  chamber : Option Str
  committeeType : Option Str
  subcommittees : Option (List Subcommittee)
deriving DecidableEq

/-- Canonical committee record (TypeScript interface `Committee`). -/
structure Committee where
  systemCode : Option Str
  name : Option Str
  url : Option Str
  chamber : Option Str
  committeeType : Option Str
  subcommittees : Option (List Subcommittee)
deriving DecidableEq

/-- Committee normalization used by `getCommittees`. -/
def normalizeCommittee (c : RawCommittee) : Committee :=
  { systemCode := c.systemCode
    name := c.name
    url := c.url
    chamber := c.chamber
    committeeType := c.committeeType
    subcommittees := c.subcommittees.map (List.map (fun s =>
      { systemCode := s.systemCode, name := s.name, url := s.url })) }

/-! ### Adapter pipeline -/

/-- Cause of a rejected axios promise.  Every catch block in the source
returns the same empty/null result for all of these (distinguishing them
only in the diagnostic log), so one constructor per cause suffices. -/
inductive AxiosErr where
  | timeout : AxiosErr
  | connRefused : AxiosErr
  | httpStatus : Nat → AxiosErr
  | other : AxiosErr
deriving DecidableEq

/-- Outcome of an awaited axios request: a resolved payload or a rejection
caught by the adapter's catch block.  A malformed-but-resolved body is a
`success` whose optional payload fields are absent. -/
inductive Fetch (α : Type) where
  | success : α → Fetch α
  | failure : AxiosErr → Fetch α
deriving DecidableEq

/-- Mapping a fallible function over a list, propagating the first failure:
models a `.map(...)` callback that may throw inside the adapter's `try`. -/
def listMapOpt {α β : Type} (f : α → Option β) : List α → Option (List β)
  | [] => some []
  | a :: l =>
    match f a with
    | none => none
    | some b =>
      match listMapOpt f l with
      | none => none
      | some bs => some (b :: bs)

/-- Scoring pass of `searchBills` (src/index.ts lines 933-936): pair each
normalized bill with its `scoreBillRelevance`, failing if any scoring
throws. -/
def scoreBills (query : Str) (bills : List CongressBill) : Option (List (CongressBill × ℚ)) :=
  listMapOpt (fun b =>
    match scoreBillRelevance (toScoringBill b) query with
    | none => none
    | some s => some (b, s)) bills

/-- Scoring pass of `searchDocuments` (src/index.ts lines 1205-1208). -/
def scoreDocs (query : Str) (docs : List FRDocument) : Option (List (FRDocument × Int)) :=
  listMapOpt (fun d =>
    match scoreDocumentRelevance (toScoringDoc d) query with
    | none => none
    | some s => some (d, s)) docs

/-- Insertion into a descending-by-score sorted list, placing the new
element before the first entry whose score does not exceed it. -/
def insertScoredDesc {α γ : Type} [LinearOrder γ] (p : α × γ) :
    List (α × γ) → List (α × γ)
  | [] => [p]
  | q :: rest => if p.2 < q.2 then q :: insertScoredDesc p rest else p :: q :: rest

/-- Stable descending sort by score, modelling
`scored.sort((a, b) => b.relevanceScore - a.relevanceScore)`
(`Array.prototype.sort` is stable per ES2019, as is this insertion sort). -/
def sortScoredDesc {α γ : Type} [LinearOrder γ] : List (α × γ) → List (α × γ)
  | [] => []
  | p :: rest => insertScoredDesc p (sortScoredDesc rest)

/-- Guard for the debug log of `searchBills` (src/index.ts lines 942-952):
`b.title.substring(0, 40)` over the top five sorted bills throws a
`TypeError` when one of those bills has no title. -/
def logTitlesOk (sorted : List (CongressBill × ℚ)) : Bool :=
  (sorted.take 5).all (fun p => p.1.title.isSome)

/-- Selection step of `searchBills` (src/index.ts lines 954-973): if at
least `limit` bills score at least 5, return the first `limit` of those;
otherwise, if anything was scored at all, return the first `limit` of the
full sorted list; otherwise the empty list.  Mapping `Prod.fst` models
stripping the internal `relevanceScore` field. -/
def searchBillsSelect (limit : Nat) (sorted : List (CongressBill × ℚ)) : List CongressBill :=
  let highRel := sorted.filter (fun p => (5 : ℚ) ≤ p.2)
  if limit ≤ highRel.length then (highRel.take limit).map Prod.fst
  else if 0 < sorted.length then (sorted.take limit).map Prod.fst
  else []

/-- Selection step of `searchDocuments` (src/index.ts lines 1213-1226):
filter to scores at least 5, truncate to `limit` and strip scores; if that
kept fewer than `limit` while the upstream returned documents, fall back to
the first `limit` of the full sorted list. -/
def searchDocumentsSelect (limit : Nat) (sorted : List (FRDocument × Int)) : List FRDocument :=
  let relevantDocs := ((sorted.filter (fun p => (5 : Int) ≤ p.2)).take limit).map Prod.fst
  if relevantDocs.length < limit ∧ 0 < sorted.length then (sorted.take limit).map Prod.fst
  else relevantDocs

/-- Embedding of `CongressAPI.searchBills` (src/index.ts lines 886-978).
The optional `congress` filter and the over-fetch limit
`min(limit * 5, 250)` only shape the upstream request and are absorbed into
the `Fetch` outcome.  Inside `try`: read `response.data.bills || []`,
normalize, score (a thrown regex `SyntaxError` is caught, yielding `[]`),
sort descending, log the top five titles (a missing title throws a caught
`TypeError`, yielding `[]`), then select by the relevance floor. -/
def searchBills (query : Str) (limit : Nat) (out : Fetch (Option (List RawBill))) :
    List CongressBill :=
  match out with
  | Fetch.failure _ => []
  | Fetch.success data =>
    let bills := (data.getD []).map normalizeBill
    match scoreBills query bills with
    | none => []
    | some scored =>
      let sorted := sortScoredDesc scored
      if 0 < sorted.length ∧ logTitlesOk sorted = false then []
      else searchBillsSelect limit sorted

/-- Embedding of `CongressAPI.getBillDetails` (src/index.ts lines
980-1024): a missing `response.data.bill` throws a caught `TypeError`,
resolving to `null`. -/
def getBillDetails (out : Fetch (Option RawBill)) : Option CongressBill :=
  match out with
  | Fetch.failure _ => none
  | Fetch.success data => data.map normalizeBill

/-- Embedding of `CongressAPI.getRecentBills` (src/index.ts lines
1026-1072): `response.data.bills?.map(...) || []` with no scoring. -/
def getRecentBills (out : Fetch (Option (List RawBill))) : List CongressBill :=
  match out with
  | Fetch.failure _ => []
  | Fetch.success data => (data.map (List.map normalizeBill)).getD []

/-- Embedding of `CongressAPI.searchVotes` (src/index.ts lines 1074-1126);
the catch block logs 403 specially but returns `[]` for every error. -/
def searchVotes (out : Fetch (Option (List RawVote))) : List CongressVote :=
  match out with
  | Fetch.failure _ => []
  | Fetch.success data => (data.map (List.map normalizeVote)).getD []

/-- Embedding of `CongressAPI.getCommittees` (src/index.ts lines
1128-1168). -/
def getCommittees (out : Fetch (Option (List RawCommittee))) : List Committee :=
  match out with
  | Fetch.failure _ => []
  | Fetch.success data => (data.map (List.map normalizeCommittee)).getD []

/-- Embedding of `FederalRegisterAPI.searchDocuments` (src/index.ts lines
1173-1231): read `response.data.results || []`, normalize, score, sort
descending, then apply the relevance floor with full-list fallback. -/
def searchDocuments (query : Str) (limit : Nat) (out : Fetch (Option (List RawFRDoc))) :
    List FRDocument :=
  match out with
  | Fetch.failure _ => []
  | Fetch.success data =>
    let docs := (data.getD []).map normalizeFRDoc
    match scoreDocs query docs with
    | none => []
    | some scored => searchDocumentsSelect limit (sortScoredDesc scored)

/-- Embedding of `FederalRegisterAPI.getRecentDocuments` (src/index.ts
lines 1233-1264). -/
def getRecentDocuments (out : Fetch (Option (List RawFRDoc))) : List FRDocument :=
  match out with
  | Fetch.failure _ => []
  | Fetch.success data => (data.map (List.map normalizeFRDoc)).getD []

/-- Embedding of `FederalRegisterAPI.getDocumentDetails` (src/index.ts
lines 1266-1295): the resolved body itself is the document. -/
def getDocumentDetails (out : Fetch RawFRDoc) : Option FRDocument :=
  match out with
  | Fetch.failure _ => none
  | Fetch.success d => some (normalizeFRDocDetail d)

/-- Outcome of the `searchCode` request, whose
`validateStatus: status < 500` makes axios resolve 4xx responses (carrying
their status) and reject 5xx and network errors. -/
inductive CodeFetch where
  | response : Nat → Option (List USCodeSection) → CodeFetch
  | failure : AxiosErr → CodeFetch
deriving DecidableEq

/-- Embedding of `USCodeAPI.searchCode` (src/index.ts lines 1300-1353):
resolved responses with status at least 400 are logged and yield `[]`
without throwing; otherwise `response.data.results?.map(...) || []`; the
catch block distinguishes timeout and connection-refused codes in its log
but returns `[]` for every rejection. -/
def searchCode (query : Str) (limit : Nat) (out : CodeFetch) : List USCodeSection :=
  match out with
  | CodeFetch.response status data =>
    if 400 ≤ status then []
    else (data.map (List.map normalizeCodeSection)).getD []
  | CodeFetch.failure _ => []

/-- Embedding of `USCodeAPI.getSection` (src/index.ts lines 1355-1377). -/
def getSection (out : Fetch USCodeSection) : Option USCodeSection :=
  match out with
  | Fetch.failure _ => none
  | Fetch.success d => some (normalizeCodeSection d)

/-- Embedding of `CourtListenerAPI.searchOpinions` (src/index.ts lines
1389-1461): `response.data.results?.map(normalize) || []`; the `query`,
`court` and `limit` arguments only shape the upstream request. -/
def searchOpinions (query : Str) (court : Option Str) (limit : Nat)
    (out : Fetch (Option (List RawOpinion))) : List CourtOpinion :=
  match out with
  | Fetch.failure _ => []
  | Fetch.success data => (data.map (List.map normalizeOpinion)).getD []

/-- Embedding of `CourtListenerAPI.getRecentOpinions` (src/index.ts lines
1463-1533), whose normalization map is textually identical to that of
`searchOpinions`. -/
def getRecentOpinions (court : Option Str) (limit : Nat)
    (out : Fetch (Option (List RawOpinion))) : List CourtOpinion :=
  match out with
  | Fetch.failure _ => []
  | Fetch.success data => (data.map (List.map normalizeOpinion)).getD []

/-- Embedding of `CourtListenerAPI.getOpinion` (src/index.ts lines
1535-1577), which reads only camelCase fields. -/
def getOpinion (out : Fetch RawOpinion) : Option CourtOpinion :=
  match out with
  | Fetch.failure _ => none
  | Fetch.success o => some (normalizeOpinionCamel o)

/-- Embedding of `RegulationsGovAPI.searchComments` (src/index.ts lines
1588-1619): `response.data.data?.map(...) || []`, where the map reads
`comment.attributes.comment` without optional chaining, so a missing
`attributes` throws a `TypeError` that the catch turns into `[]`. -/
def searchComments (query : Str) (limit : Nat) (out : Fetch (Option (List RawComment))) :
    List RegulationComment :=
  match out with
  | Fetch.failure _ => []
  | Fetch.success data =>
    match listMapOpt normalizeComment (data.getD []) with
    | none => []
    | some l => l

/-- Result shape of `USLegalAPI.searchAll`: exactly the four keys `bills`,
`regulations`, `codeSections`, `comments`. -/
structure SearchAllResult where
  bills : List CongressBill
  regulations : List FRDocument
  codeSections : List USCodeSection
  comments : List RegulationComment
deriving DecidableEq

/-- Embedding of `USLegalAPI.searchAll` (src/index.ts lines 1643-1665):
fans out to the four sub-searches, each with per-source limit
`Math.ceil(limit / 4)` — `(limit + 3) / 4` on naturals — and `congress`
left undefined for bills.  `Promise.all` concurrency is not observable in
the result: each field depends only on its own adapter's outcome, and a
failed outcome yields that adapter's empty list without affecting the
others. -/
def searchAll (query : Str) (limit : Nat)
    (outBills : Fetch (Option (List RawBill)))
    (outDocs : Fetch (Option (List RawFRDoc)))
    (outCode : CodeFetch)
    (outComments : Fetch (Option (List RawComment))) : SearchAllResult :=
  { bills := searchBills query ((limit + 3) / 4) outBills
    regulations := searchDocuments query ((limit + 3) / 4) outDocs
    codeSections := searchCode query ((limit + 3) / 4) outCode
    comments := searchComments query ((limit + 3) / 4) outComments }

/-! ### Sample payloads used by concrete witnesses and counterexamples -/

/-- Raw bill with every optional field absent. -/
def blankRawBill : RawBill :=
  ⟨none, none, none, none, none, none, none, none, none, none, none⟩

/-- Raw Federal Register document with every optional field absent. -/
def blankRawFRDoc : RawFRDoc :=
  ⟨none, none, none, none, none, none, none, none, none, none, none⟩

/-- Raw opinion with every optional field absent. -/
def blankRawOpinion : RawOpinion :=
  ⟨none, none, none, none, none, none, none, none, none, none, none, none, none,
   none, none, none, none, none, none, none, none, none, none, none, none, none,
   none, none, none, none, none, none, none, none, none, none, none⟩

/-- Scoring view of a bill with every optional field absent. -/
def blankScoringBill : ScoringBill := ⟨none, none, none, none, none⟩

/-- Raw bill whose title contains the regex-invalid query term `"act("`. -/
def parenRawBill : RawBill := { blankRawBill with title := some "privacy act( 2024".data }

/-- Raw bill whose title is the regex-invalid string `"(((("`. -/
def cexParenRawBill : RawBill := { blankRawBill with title := some "((((".data }

/-- Raw bill with a title matching the query `"health"`. -/
def healthRawBill : RawBill := { blankRawBill with title := some "health care".data }

/-- Raw document with a title matching the query `"health"`. -/
def healthRawFRDoc : RawFRDoc := { blankRawFRDoc with title := some "health rules".data }

/-- Raw opinion carrying an empty-string camelCase case name next to a
populated snake_case one. -/
def emptyCamelOpinion : RawOpinion :=
  { blankRawOpinion with caseName := some [], case_name := some "x".data }

/-- Raw opinion with only the camelCase case name and an id. -/
def roeOpinion : RawOpinion :=
  { blankRawOpinion with caseName := some "Roe v. Wade".data, id := some 7 }

/-- Raw opinion carrying nothing but an id. -/
def idOnlyOpinion : RawOpinion := { blankRawOpinion with id := some 7 }

/-- Every string-typed field of a raw opinion, in declaration order: the
pool of string values the upstream payload actually provides. -/
def rawOpinionStrFields (o : RawOpinion) : List (Option Str) :=
  [o.caseName, o.case_name, o.caseNameFull, o.case_name_full, o.dateFiled, o.date_filed,
   o.dateModified, o.date_modified, o.court, o.court_name, o.jurisdiction, o.citation,
   o.precedentialStatus, o.precedential_status, o.absoluteUrl, o.absolute_url,
   o.downloadUrl, o.download_url, o.plainText, o.plain_text, o.html, o.htmlLawbox,
   o.html_lawbox, o.htmlColumbia, o.html_columbia, o.htmlAnon2020, o.html_anon_2020,
   o.docket, o.docketNumber, o.docket_number, o.slug]

/-! ### Helper lemmas -/

/-- The loop score accumulated by `scoreLoop` is non-negative. -/
theorem scoreLoop_nonneg (lt : Str) :
    ∀ (terms : List Str) (s : Int) (m : Nat), scoreLoop lt terms = some (s, m) → 0 ≤ s := by
  intro terms
  induction terms with
  | nil =>
    intro s m h
    simp only [scoreLoop, Option.some.injEq, Prod.mk.injEq] at h
    omega
  | cons t ts ih =>
    intro s m h
    by_cases hc : strContains t lt
    · simp only [scoreLoop, if_pos hc] at h
      cases hg : jsRegexGCount t lt with
      | throws => rw [hg] at h; exact absurd h (by simp)
      | counts n =>
        rw [hg] at h
        cases hrec : scoreLoop lt ts with
        | none => rw [hrec] at h; exact absurd h (by simp)
        | some p =>
          obtain ⟨s', m'⟩ := p
          rw [hrec] at h
          simp only [Option.some.injEq, Prod.mk.injEq] at h
          obtain ⟨hs, _⟩ := h
          have hs' := ih s' m' hrec
          have hmin : (0 : Int) ≤ ((min n 3 : Nat) : Int) := by positivity
          omega
    · simp only [scoreLoop, if_neg hc] at h
      exact ih s m h

/-- Structure of `scoreLoop` on regex-safe terms: the accumulated score is
the sum of the per-term contributions and the matched-term counter counts
the contained terms. -/
theorem scoreLoop_spec (lt : Str) :
    ∀ (terms : List Str),
      (∀ t ∈ terms, strContains t lt = true → regexSafe t = true) →
      scoreLoop lt terms =
        some ((terms.map (termContribution lt)).sum,
              terms.countP (fun t => strContains t lt)) := by
  intro terms
  induction terms with
  | nil => intro _; simp [scoreLoop]
  | cons t ts ih =>
    intro hsafe
    have hts : ∀ t' ∈ ts, strContains t' lt = true → regexSafe t' = true :=
      fun t' ht' => hsafe t' (List.mem_cons_of_mem _ ht')
    by_cases hc : strContains t lt
    · have hsafeT : regexSafe t = true := hsafe t (List.mem_cons_self _ _) hc
      simp only [scoreLoop, if_pos hc, jsRegexGCount, hsafeT, if_true, ih hts,
        List.map_cons, List.sum_cons, List.countP_cons, hc, termContribution, if_pos hc]
    · simp only [scoreLoop, if_neg hc, ih hts, List.map_cons, List.sum_cons,
        List.countP_cons, termContribution, hc]
      simp

/-- Mapping a fallible function over a list preserves length when it
succeeds. -/
theorem listMapOpt_length {α β : Type} (f : α → Option β) :
    ∀ (l : List α) (r : List β), listMapOpt f l = some r → r.length = l.length := by
  intro l
  induction l with
  | nil =>
    intro r h
    simp [listMapOpt] at h
    simp [← h]
  | cons a l ih =>
    intro r h
    simp only [listMapOpt] at h
    cases hf : f a with
    | none => rw [hf] at h; exact absurd h (by simp)
    | some b =>
      rw [hf] at h
      cases hl : listMapOpt f l with
      | none => rw [hl] at h; exact absurd h (by simp)
      | some bs =>
        rw [hl] at h
        simp only [Option.some.injEq] at h
        simp [← h, ih bs hl]

/-- Insertion grows the sorted list by one element. -/
theorem insertScoredDesc_length {α γ : Type} [LinearOrder γ] (p : α × γ) :
    ∀ l : List (α × γ), (insertScoredDesc p l).length = l.length + 1 := by
  intro l
  induction l with
  | nil => simp [insertScoredDesc]
  | cons q rest ih =>
    by_cases h : p.2 < q.2 <;> simp [insertScoredDesc, h, ih]

/-- Sorting preserves length. -/
theorem sortScoredDesc_length {α γ : Type} [LinearOrder γ] :
    ∀ l : List (α × γ), (sortScoredDesc l).length = l.length := by
  intro l
  induction l with
  | nil => rfl
  | cons p rest ih => simp [sortScoredDesc, insertScoredDesc_length, ih]

/-- Behaviour of the `searchBills` selection step on a non-empty sorted
list and a positive limit: it returns the first `limit` of the floored list
when the floor keeps at least `limit` entries and the first `limit` of the
full list otherwise, always yielding `min limit sorted.length` records. -/
theorem searchBillsSelect_spec (limit : Nat) (sorted : List (CongressBill × ℚ))
    (h1 : 1 ≤ limit) (h2 : sorted ≠ []) :
    searchBillsSelect limit sorted =
      (if limit ≤ (sorted.filter (fun p => (5 : ℚ) ≤ p.2)).length
       then ((sorted.filter (fun p => (5 : ℚ) ≤ p.2)).take limit).map Prod.fst
       else (sorted.take limit).map Prod.fst)
    ∧ (searchBillsSelect limit sorted).length = min limit sorted.length
    ∧ searchBillsSelect limit sorted ≠ [] := by
  have hpos : 0 < sorted.length := List.length_pos.mpr h2
  have hfle : (sorted.filter (fun p => (5 : ℚ) ≤ p.2)).length ≤ sorted.length :=
    List.length_filter_le _ sorted
  by_cases hc : limit ≤ (sorted.filter (fun p => (5 : ℚ) ≤ p.2)).length
  · have heq : searchBillsSelect limit sorted =
        ((sorted.filter (fun p => (5 : ℚ) ≤ p.2)).take limit).map Prod.fst := by
      simp [searchBillsSelect, hc]
    have hlen : (searchBillsSelect limit sorted).length = min limit sorted.length := by
      rw [heq]
      simp [List.length_map, List.length_take]
      omega
    refine ⟨by rw [heq, if_pos hc], hlen, ?_⟩
    have : 0 < (searchBillsSelect limit sorted).length := by omega
    exact List.length_pos.mp this
  · have heq : searchBillsSelect limit sorted = (sorted.take limit).map Prod.fst := by
      simp [searchBillsSelect, hc, hpos]
    have hlen : (searchBillsSelect limit sorted).length = min limit sorted.length := by
      rw [heq]
      simp [List.length_map, List.length_take]
    refine ⟨by rw [heq, if_neg hc], hlen, ?_⟩
    have : 0 < (searchBillsSelect limit sorted).length := by omega
    exact List.length_pos.mp this

/-- Behaviour of the `searchDocuments` selection step, which despite its
different control flow implements the same policy as `searchBillsSelect`. -/
theorem searchDocumentsSelect_spec (limit : Nat) (sorted : List (FRDocument × Int))
    (h1 : 1 ≤ limit) (h2 : sorted ≠ []) :
    searchDocumentsSelect limit sorted =
      (if limit ≤ (sorted.filter (fun p => (5 : Int) ≤ p.2)).length
       then ((sorted.filter (fun p => (5 : Int) ≤ p.2)).take limit).map Prod.fst
       else (sorted.take limit).map Prod.fst)
    ∧ (searchDocumentsSelect limit sorted).length = min limit sorted.length
    ∧ searchDocumentsSelect limit sorted ≠ [] := by
  have hpos : 0 < sorted.length := List.length_pos.mpr h2
  have hfle : (sorted.filter (fun p => (5 : Int) ≤ p.2)).length ≤ sorted.length :=
    List.length_filter_le _ sorted
  have hrel : (((sorted.filter (fun p => (5 : Int) ≤ p.2)).take limit).map Prod.fst).length
      = min limit (sorted.filter (fun p => (5 : Int) ≤ p.2)).length := by
    simp [List.length_map, List.length_take]
  by_cases hc : limit ≤ (sorted.filter (fun p => (5 : Int) ≤ p.2)).length
  · have hnotlt : ¬ ((((sorted.filter (fun p => (5 : Int) ≤ p.2)).take limit).map Prod.fst).length
        < limit ∧ 0 < sorted.length) := by
      rw [hrel]
      omega
    have heq : searchDocumentsSelect limit sorted =
        ((sorted.filter (fun p => (5 : Int) ≤ p.2)).take limit).map Prod.fst := by
      simp only [searchDocumentsSelect, if_neg hnotlt]
    have hlen : (searchDocumentsSelect limit sorted).length = min limit sorted.length := by
      rw [heq, hrel]
      omega
    refine ⟨by rw [heq, if_pos hc], hlen, ?_⟩
    have : 0 < (searchDocumentsSelect limit sorted).length := by omega
    exact List.length_pos.mp this
  · have hlt : ((((sorted.filter (fun p => (5 : Int) ≤ p.2)).take limit).map Prod.fst).length
        < limit ∧ 0 < sorted.length) := by
      rw [hrel]
      omega
    have heq : searchDocumentsSelect limit sorted = (sorted.take limit).map Prod.fst := by
      simp only [searchDocumentsSelect, if_pos hlt]
    have hlen : (searchDocumentsSelect limit sorted).length = min limit sorted.length := by
      rw [heq]
      simp [List.length_map, List.length_take]
    refine ⟨by rw [heq, if_neg hc], hlen, ?_⟩
    have : 0 < (searchDocumentsSelect limit sorted).length := by omega
    exact List.length_pos.mp this

/-! ### Claim theorems -/

/-- C4, counterexample to the claim as stated: the lowercase text `"ab"`
contains the lowercase query `"ab"` verbatim, yet the score is 0 (not at
least 10), because both query terms are discarded by the length filter
before the verbatim bonus is reached. -/
theorem score_verbatim_cex :
    strContains (lowerStr "ab".data) (lowerStr "ab".data) = true
    ∧ calculateRelevanceScore "ab".data "ab".data = some 0
    ∧ ¬ (10 ≤ (0 : Int)) :=
  ⟨by decide, by decide, by decide⟩

/-- C4, amended: if the lowercase text contains the lowercase query
verbatim AND at least one query term of length greater than 2 survives the
filter, then whenever the scoring completes it returns at least 10. -/
theorem score_verbatim_ge_ten (text query : Str)
    (hcontain : strContains (lowerStr query) (lowerStr text) = true)
    (hterms : queryTermsOf query ≠ []) :
    ∀ s : Int, calculateRelevanceScore text query = some s → 10 ≤ s := by
  intro s h
  have hq : query ≠ [] := by
    intro hq
    apply hterms
    rw [hq]
    decide
  have ht : text ≠ [] := by
    intro ht
    rw [ht] at hcontain
    cases hql : lowerStr query with
    | nil =>
      apply hq
      cases query with
      | nil => rfl
      | cons c cs => simp [lowerStr] at hql
    | cons c cs =>
      rw [hql] at hcontain
      simp [strContains, isPrefixChars] at hcontain
  have hne : ¬ (text = [] ∨ query = []) := by
    rintro (h1 | h2)
    exacts [ht h1, hq h2]
  simp only [calculateRelevanceScore, if_neg hne, if_neg hterms] at h
  cases hloop : scoreLoop (lowerStr text) (queryTermsOf query) with
  | none => rw [hloop] at h; exact absurd h (by simp)
  | some p =>
    obtain ⟨sc, m⟩ := p
    rw [hloop] at h
    simp only [hcontain, if_true, Option.some.injEq] at h
    have hsc := scoreLoop_nonneg _ _ _ _ hloop
    by_cases hm : m = (queryTermsOf query).length
    · rw [if_pos hm] at h
      omega
    · rw [if_neg hm] at h
      omega

/-- C4, witness: a verbatim-containing text with surviving terms scores 17,
and the amended theorem yields the bound at this input. -/
theorem score_verbatim_ge_ten_witness :
    calculateRelevanceScore "my health care act".data "health care".data = some 17
    ∧ (10 : Int) ≤ 17 :=
  ⟨by decide,
   score_verbatim_ge_ten "my health care act".data "health care".data
     (by decide) (by decide) 17 (by decide)⟩

/-- C5, counterexample to the claim as stated: on text `"((("` and query
`"((("` the scorer does not return a non-negative number at all — the
retained term `"((("` occurs in the text, and `new RegExp("(((", "g")`
throws a `SyntaxError` (modelled by `none`). -/
theorem score_throws_cex :
    calculateRelevanceScore "(((".data "(((".data = none := by decide

/-- C5, amended: whenever `calculateRelevanceScore` returns a value the
value is non-negative, and it returns 0 when either input is empty and when
no query term of length greater than 2 survives the filter. -/
theorem score_nonneg_and_zero_cases (text query : Str) :
    (∀ s : Int, calculateRelevanceScore text query = some s → 0 ≤ s)
    ∧ (text = [] ∨ query = [] → calculateRelevanceScore text query = some 0)
    ∧ (queryTermsOf query = [] → calculateRelevanceScore text query = some 0) := by
  refine ⟨?_, ?_, ?_⟩
  · intro s h
    by_cases hempty : text = [] ∨ query = []
    · simp only [calculateRelevanceScore, if_pos hempty, Option.some.injEq] at h
      omega
    · simp only [calculateRelevanceScore, if_neg hempty] at h
      by_cases hterms : queryTermsOf query = []
      · rw [if_pos hterms] at h
        simp only [Option.some.injEq] at h
        omega
      · rw [if_neg hterms] at h
        cases hloop : scoreLoop (lowerStr text) (queryTermsOf query) with
        | none => rw [hloop] at h; exact absurd h (by simp)
        | some p =>
          obtain ⟨sc, m⟩ := p
          rw [hloop] at h
          simp only [Option.some.injEq] at h
          have hsc := scoreLoop_nonneg _ _ _ _ hloop
          by_cases hx : strContains (lowerStr query) (lowerStr text)
          · rw [if_pos hx] at h
            by_cases hm : m = (queryTermsOf query).length
            · rw [if_pos hm] at h; omega
            · rw [if_neg hm] at h; omega
          · rw [if_neg hx] at h
            by_cases hm : m = (queryTermsOf query).length
            · rw [if_pos hm] at h; omega
            · rw [if_neg hm] at h; omega
  · intro hempty
    simp only [calculateRelevanceScore, if_pos hempty]
  · intro hterms
    by_cases hempty : text = [] ∨ query = []
    · simp only [calculateRelevanceScore, if_pos hempty]
    · simp only [calculateRelevanceScore, if_neg hempty, if_pos hterms]

/-- C5, witness: the non-negativity bound and both zero cases instantiated
at concrete inputs through the amended theorem. -/
theorem score_nonneg_witness :
    calculateRelevanceScore "tax code".data "tax".data = some 16
    ∧ (0 : Int) ≤ 16
    ∧ calculateRelevanceScore [] "law".data = some 0
    ∧ calculateRelevanceScore "tax law".data "ab".data = some 0 := by
  refine ⟨by decide, ?_, ?_, ?_⟩
  · exact (score_nonneg_and_zero_cases "tax code".data "tax".data).1 16 (by decide)
  · exact (score_nonneg_and_zero_cases [] "law".data).2.1 (Or.inl rfl)
  · exact (score_nonneg_and_zero_cases "tax law".data "ab".data).2.2 (by decide)

/-- With no query terms, no subject tag can match. -/
theorem subjectMatchCount_nil_terms (subs : List Str) : subjectMatchCount [] subs = 0 := by
  simp [subjectMatchCount]

/-- Subject additivity of `scoreBillRelevance`: replacing the subject list
changes a defined score exactly by 20 per matching tag. -/
theorem scoreBillRelevance_subjects (bill : ScoringBill) (query : Str)
    (x : Option (List Str)) (s0 : ℚ)
    (h0 : scoreBillRelevance { bill with subjects := none } query = some s0) :
    scoreBillRelevance { bill with subjects := x } query
      = some (s0 + (match x with
          | none => 0
          | some subs => (subjectMatchCount (queryTermsOf query) subs : ℚ) * 20)) := by
  obtain ⟨bt, bst, bsu, bla, bsubs⟩ := bill
  cases ht : fieldScore bt query with
  | none => simp [scoreBillRelevance, ht] at h0
  | some t =>
  cases hst : fieldScore bst query with
  | none => simp [scoreBillRelevance, ht, hst] at h0
  | some st =>
  cases hsu : fieldScore bsu query with
  | none => simp [scoreBillRelevance, ht, hst, hsu] at h0
  | some su =>
  cases hla : fieldScore bla query with
  | none => simp [scoreBillRelevance, ht, hst, hsu, hla] at h0
  | some la =>
  simp only [scoreBillRelevance, ht, hst, hsu, hla, Option.some.injEq] at h0 ⊢
  cases x with
  | none =>
    dsimp only
    rw [← h0]
    ring
  | some subs =>
    dsimp only
    by_cases hqt : queryTermsOf query = []
    · rw [if_pos hqt, ← h0, hqt, subjectMatchCount_nil_terms]
      push_cast
      ring
    · rw [if_neg hqt, ← h0]
      ring

/-- C6, counterexample to the claim as stated: the query term `"((("` is
not a valid regular expression (unmatched parentheses), so although it
occurs as a substring of the text, instead of contributing
`min(occurrence_count, 3)` to a score it makes the scorer throw
(`new RegExp("(((", "g")` is genuinely a `SyntaxError` in JS), and no
score exists at all. -/
theorem score_term_contribution_cex :
    strContains "(((".data (lowerStr "see ((( now".data) = true
    ∧ calculateRelevanceScore "see ((( now".data "(((".data = none :=
  ⟨by decide, by decide⟩

/-- C6, amended: for metacharacter-free query terms — on which the regex
global match count is exactly the literal non-overlapping occurrence
count — the scorer returns the exact-match bonus plus, per term occurring
in the text, exactly `min(occurrence_count, 3)`, plus the completeness
bonus; each term's contribution is `min(occurrence_count, 3)`, never
exceeds 3, is never negative, and is monotonically non-decreasing in the
occurrence count.  (The amendment says nothing about terms containing
regex metacharacters: a syntactically invalid one such as the
counterexample's `"((("` makes the scorer throw, while a valid one is
counted under regex rather than literal semantics, outside the fragment
modelled here.) -/
theorem score_term_contribution_spec (text query : Str)
    (hsafe : ∀ t ∈ queryTermsOf query, strContains t (lowerStr text) = true → regexSafe t = true)
    (hne : ¬ (text = [] ∨ query = [])) (hterms : queryTermsOf query ≠ []) :
    calculateRelevanceScore text query =
      some ((if strContains (lowerStr query) (lowerStr text) then 10 else 0)
        + ((queryTermsOf query).map (termContribution (lowerStr text))).sum
        + (if (queryTermsOf query).countP (fun t => strContains t (lowerStr text))
             = (queryTermsOf query).length then 5 else 0))
    ∧ (∀ t lt : Str, strContains t lt = true →
        termContribution lt t = min ((countOcc t lt : Int)) 3)
    ∧ (∀ t lt : Str, termContribution lt t ≤ 3)
    ∧ (∀ t lt : Str, 0 ≤ termContribution lt t)
    ∧ (∀ t lt1 lt2 : Str, countOcc t lt1 ≤ countOcc t lt2 →
        strContains t lt1 = true → strContains t lt2 = true →
        termContribution lt1 t ≤ termContribution lt2 t) := by
  refine ⟨?_, ?_, ?_, ?_, ?_⟩
  · simp only [calculateRelevanceScore, if_neg hne, if_neg hterms,
      scoreLoop_spec (lowerStr text) (queryTermsOf query) hsafe]
  · intro t lt h
    simp only [termContribution, if_pos h]
    omega
  · intro t lt
    simp only [termContribution]
    split <;> omega
  · intro t lt
    simp only [termContribution]
    split <;> omega
  · intro t lt1 lt2 hcount h1 h2
    simp only [termContribution, if_pos h1, if_pos h2]
    omega

/-- C6, witness: on a regex-safe query the structural formula evaluates,
the term `"carbon"` occurring three times contributes its capped 3, and the
whole score is 19. -/
theorem score_term_contribution_witness :
    calculateRelevanceScore "carbon tax carbon carbon".data "carbon tax".data = some 19
    ∧ termContribution (lowerStr "carbon tax carbon carbon".data) "carbon".data = 3 := by
  have h := score_term_contribution_spec "carbon tax carbon carbon".data "carbon tax".data
    (by decide) (by decide) (by decide)
  refine ⟨?_, by decide⟩
  rw [h.1]
  decide

/-- C7, counterexample to the claim as stated: for the query `"((("`, a
bill whose title contains the term and which carries one matching subject
tag has no score at all (the title scoring throws before the subject loop
runs), and neither does the identical bill without the matching tag, so the
claimed at-least-20-higher relation cannot hold for them. -/
theorem scoreBill_subject_bonus_cex :
    subjectMatchCount (queryTermsOf "(((".data) ["((( tag".data] = 1
    ∧ scoreBillRelevance
        ⟨some "(((".data, none, none, none, some ["((( tag".data]⟩ "(((".data = none
    ∧ scoreBillRelevance
        ⟨some "(((".data, none, none, none, some []⟩ "(((".data = none :=
  ⟨by decide, by decide, by decide⟩

/-- C7, amended: whenever the weighted text-field scoring completes,
adding a subject list to a bill adds exactly 20 per tag containing at
least one query term; the count grows by exactly one per matching tag no
matter how many terms hit it; and a bill with at least one matching tag
scores at least 20 higher than the identical bill whose tags match no
query term. -/
theorem scoreBill_subject_bonus (bill : ScoringBill) (query : Str) (subs : List Str) (s0 : ℚ)
    (h0 : scoreBillRelevance { bill with subjects := none } query = some s0) :
    scoreBillRelevance { bill with subjects := some subs } query
      = some (s0 + (subjectMatchCount (queryTermsOf query) subs : ℚ) * 20)
    ∧ (∀ (tag : Str) (rest : List Str), subjectMatchCount (queryTermsOf query) (tag :: rest)
        = (if (queryTermsOf query).any (fun t => strContains t (lowerStr tag)) then 1 else 0)
          + subjectMatchCount (queryTermsOf query) rest)
    ∧ (∀ subs2 : List Str, subjectMatchCount (queryTermsOf query) subs2 = 0 →
        ∀ s1 s2 : ℚ,
          scoreBillRelevance { bill with subjects := some subs } query = some s1 →
          scoreBillRelevance { bill with subjects := some subs2 } query = some s2 →
          1 ≤ subjectMatchCount (queryTermsOf query) subs →
          s2 + 20 ≤ s1) := by
  refine ⟨scoreBillRelevance_subjects bill query (some subs) s0 h0, ?_, ?_⟩
  · intro tag rest
    simp only [subjectMatchCount, List.filter_cons]
    by_cases h : (queryTermsOf query).any (fun t => strContains t (lowerStr tag)) <;>
      simp [h] <;> omega
  · intro subs2 hz s1 s2 hs1 hs2 hone
    have e1 := scoreBillRelevance_subjects bill query (some subs) s0 h0
    have e2 := scoreBillRelevance_subjects bill query (some subs2) s0 h0
    rw [hs1] at e1
    rw [hs2] at e2
    simp only [Option.some.injEq] at e1 e2
    rw [hz] at e2
    have hcast : (1 : ℚ) ≤ (subjectMatchCount (queryTermsOf query) subs : ℚ) := by
      exact_mod_cast hone
    rw [e1, e2]
    push_cast
    nlinarith

/-- C7, witness: a bill with no scored text fields and one matching subject
tag scores exactly the flat 20-point tag bonus. -/
theorem scoreBill_subject_bonus_witness :
    scoreBillRelevance { blankScoringBill with subjects := some ["health policy".data] }
      "health".data = some 20 := by
  have h0 : scoreBillRelevance { blankScoringBill with subjects := none } "health".data
      = some 0 := by
    norm_num [scoreBillRelevance, blankScoringBill, fieldScore]
  have h := scoreBill_subject_bonus blankScoringBill "health".data ["health policy".data] 0 h0
  rw [h.1]
  have hc : subjectMatchCount (queryTermsOf "health".data) ["health policy".data] = 1 := by
    decide
  rw [hc]
  norm_num

/-- C10: the query term `"act("` survives the length filter, the scored
title contains it, `new RegExp("act(", "g")` throws (modelled `none`), and
`searchBills` consequently returns the empty list — a normal return, no
escaping exception — even though the upstream returned one candidate. -/
theorem regex_term_throws_and_is_swallowed :
    calculateRelevanceScore "privacy act( 2024".data "act(".data = none
    ∧ searchBills "act(".data 20 (Fetch.success (some [parenRawBill])) = []
    ∧ ((some [parenRawBill] : Option (List RawBill)).getD []).length = 1 :=
  ⟨by decide, by decide, by decide⟩

/-- C1, counterexample to the claim as stated: with one upstream candidate
and limit 1 the claim demands exactly `min(1, 1) = 1` record, but for the
query `"(((("` (whose retained term occurs in the candidate's title and is
an invalid regex) `searchBills` returns the empty list. -/
theorem floor_policy_cex :
    searchBills "((((".data 1 (Fetch.success (some [cexParenRawBill])) = []
    ∧ min 1 [cexParenRawBill].length = 1 :=
  ⟨by decide, by decide⟩

/-- C1, amended: provided the relevance scoring of every candidate
completes without a thrown regex error and (for bills) the top five sorted
bills all carry titles for the debug log, both scoring search adapters
return exactly `min(limit, number of candidates)` records: the first
`limit` of the score-sorted candidates scoring at least 5 when at least
`limit` such candidates exist, and the first `limit` of the full
score-sorted list otherwise — never the empty list. -/
theorem searchBills_searchDocuments_floor_policy
    (query : Str) (limit : Nat)
    (rawBills : List RawBill) (rawDocs : List RawFRDoc)
    (scoredB : List (CongressBill × ℚ)) (scoredD : List (FRDocument × Int))
    (hlim : 1 ≤ limit) (hb : rawBills ≠ []) (hd : rawDocs ≠ [])
    (hsb : scoreBills query (rawBills.map normalizeBill) = some scoredB)
    (hlog : logTitlesOk (sortScoredDesc scoredB) = true)
    (hsd : scoreDocs query (rawDocs.map normalizeFRDoc) = some scoredD) :
    (searchBills query limit (Fetch.success (some rawBills))).length = min limit rawBills.length
    ∧ searchBills query limit (Fetch.success (some rawBills)) ≠ []
    ∧ searchBills query limit (Fetch.success (some rawBills)) =
        (if limit ≤ ((sortScoredDesc scoredB).filter (fun p => (5 : ℚ) ≤ p.2)).length
         then (((sortScoredDesc scoredB).filter (fun p => (5 : ℚ) ≤ p.2)).take limit).map Prod.fst
         else ((sortScoredDesc scoredB).take limit).map Prod.fst)
    ∧ (searchDocuments query limit (Fetch.success (some rawDocs))).length
        = min limit rawDocs.length
    ∧ searchDocuments query limit (Fetch.success (some rawDocs)) ≠ []
    ∧ searchDocuments query limit (Fetch.success (some rawDocs)) =
        (if limit ≤ ((sortScoredDesc scoredD).filter (fun p => (5 : Int) ≤ p.2)).length
         then (((sortScoredDesc scoredD).filter (fun p => (5 : Int) ≤ p.2)).take limit).map
           Prod.fst
         else ((sortScoredDesc scoredD).take limit).map Prod.fst) := by
  have hblen : scoredB.length = rawBills.length := by
    have h := listMapOpt_length _ (rawBills.map normalizeBill) scoredB hsb
    simpa using h
  have hdlen : scoredD.length = rawDocs.length := by
    have h := listMapOpt_length _ (rawDocs.map normalizeFRDoc) scoredD hsd
    simpa using h
  have hbpos : 0 < rawBills.length := List.length_pos.mpr hb
  have hdpos : 0 < rawDocs.length := List.length_pos.mpr hd
  have hsortB : (sortScoredDesc scoredB).length = scoredB.length := sortScoredDesc_length scoredB
  have hsortD : (sortScoredDesc scoredD).length = scoredD.length := sortScoredDesc_length scoredD
  have hsneB : sortScoredDesc scoredB ≠ [] := by
    apply List.length_pos.mp
    omega
  have hsneD : sortScoredDesc scoredD ≠ [] := by
    apply List.length_pos.mp
    omega
  have hrunB : searchBills query limit (Fetch.success (some rawBills))
      = searchBillsSelect limit (sortScoredDesc scoredB) := by
    simp [searchBills, hsb, hlog]
  have hrunD : searchDocuments query limit (Fetch.success (some rawDocs))
      = searchDocumentsSelect limit (sortScoredDesc scoredD) := by
    simp [searchDocuments, hsd]
  obtain ⟨heqB, hlenB, hneB⟩ := searchBillsSelect_spec limit (sortScoredDesc scoredB) hlim hsneB
  obtain ⟨heqD, hlenD, hneD⟩ :=
    searchDocumentsSelect_spec limit (sortScoredDesc scoredD) hlim hsneD
  refine ⟨?_, ?_, ?_, ?_, ?_, ?_⟩
  · rw [hrunB, hlenB, hsortB, hblen]
  · rw [hrunB]; exact hneB
  · rw [hrunB]; exact heqB
  · rw [hrunD, hlenD, hsortD, hdlen]
  · rw [hrunD]; exact hneD
  · rw [hrunD]; exact heqD

/-- C1, witness: one matching candidate per adapter at limit 1 yields a
non-empty result on both scoring adapters. -/
theorem floor_policy_witness :
    searchBills "health".data 1 (Fetch.success (some [healthRawBill])) ≠ []
    ∧ searchDocuments "health".data 1 (Fetch.success (some [healthRawFRDoc])) ≠ [] := by
  have hsb : scoreBills "health".data ([healthRawBill].map normalizeBill)
      = some [(normalizeBill healthRawBill, (64 : ℚ))] := by
    have h16 : calculateRelevanceScore "health care".data "health".data = some 16 := by decide
    simp [scoreBills, listMapOpt, scoreBillRelevance, fieldScore, toScoringBill,
      normalizeBill, healthRawBill, blankRawBill, h16]
    norm_num
  have hsd : scoreDocs "health".data ([healthRawFRDoc].map normalizeFRDoc)
      = some [(normalizeFRDoc healthRawFRDoc, (48 : Int))] := by decide
  have hlog : logTitlesOk (sortScoredDesc [(normalizeBill healthRawBill, (64 : ℚ))]) = true := by
    rfl
  have h := searchBills_searchDocuments_floor_policy "health".data 1 [healthRawBill]
    [healthRawFRDoc] [(normalizeBill healthRawBill, (64 : ℚ))]
    [(normalizeFRDoc healthRawFRDoc, (48 : Int))]
    (by decide) (by decide) (by decide) hsb hlog hsd
  exact ⟨h.2.1, h.2.2.2.2.1⟩

/-- C2: every adapter method returns normally on every failure outcome —
list methods yield the empty list and single-record methods yield `none` on
any rejected request (timeout, refused connection, error status, ...); a
malformed resolved payload (missing list field) also yields the empty
list; and `searchCode` yields the empty list on any resolved 4xx status
without raising. -/
theorem adapters_degrade_to_empty (query : Str) (limit : Nat) (court : Option Str)
    (e : AxiosErr) :
    searchBills query limit (Fetch.failure e) = []
    ∧ getBillDetails (Fetch.failure e) = none
    ∧ getRecentBills (Fetch.failure e) = []
    ∧ searchVotes (Fetch.failure e) = []
    ∧ getCommittees (Fetch.failure e) = []
    ∧ searchDocuments query limit (Fetch.failure e) = []
    ∧ getRecentDocuments (Fetch.failure e) = []
    ∧ getDocumentDetails (Fetch.failure e) = none
    ∧ (∀ (status : Nat) (data : Option (List USCodeSection)),
        400 ≤ status → searchCode query limit (CodeFetch.response status data) = [])
    ∧ searchCode query limit (CodeFetch.failure e) = []
    ∧ getSection (Fetch.failure e) = none
    ∧ searchOpinions query court limit (Fetch.failure e) = []
    ∧ getRecentOpinions court limit (Fetch.failure e) = []
    ∧ getOpinion (Fetch.failure e) = none
    ∧ searchComments query limit (Fetch.failure e) = []
    ∧ searchBills query limit (Fetch.success none) = []
    ∧ getBillDetails (Fetch.success none) = none
    ∧ getRecentBills (Fetch.success none) = []
    ∧ searchVotes (Fetch.success none) = []
    ∧ getCommittees (Fetch.success none) = []
    ∧ searchDocuments query limit (Fetch.success none) = []
    ∧ getRecentDocuments (Fetch.success none) = []
    ∧ searchCode query limit (CodeFetch.response 200 none) = []
    ∧ searchOpinions query court limit (Fetch.success none) = []
    ∧ getRecentOpinions court limit (Fetch.success none) = []
    ∧ searchComments query limit (Fetch.success none) = [] := by
  refine ⟨rfl, rfl, rfl, rfl, rfl, rfl, rfl, rfl, ?_, rfl, rfl, rfl, rfl, rfl, rfl,
    ?_, rfl, rfl, rfl, rfl, ?_, rfl, by simp [searchCode], rfl, rfl, rfl⟩
  · intro status data h
    simp [searchCode, h]
  · simp [searchBills, scoreBills, listMapOpt, sortScoredDesc, searchBillsSelect]
  · simp [searchDocuments, scoreDocs, listMapOpt, sortScoredDesc, searchDocumentsSelect]

/-- C2, witness: the 4xx clause at status 404 and two failure clauses at
concrete errors. -/
theorem adapters_degrade_to_empty_witness :
    searchCode [] 20 (CodeFetch.response 404 none) = []
    ∧ searchBills [] 20 (Fetch.failure AxiosErr.timeout) = []
    ∧ getOpinion (Fetch.failure AxiosErr.timeout) = none := by
  obtain ⟨w1, _, _, _, _, _, _, _, w9, _, _, _, _, w14, _, _⟩ :=
    adapters_degrade_to_empty [] 20 none AxiosErr.timeout
  exact ⟨w9 404 none (by decide), w1, w14⟩

/-- C3: `searchAll` is exactly the four sub-searches — bills, Federal
Register documents, US Code sections, public comments — each invoked with
per-source limit `(limit + 3) / 4`, which equals `ceil(limit / 4)`; the
result has exactly the four fields, a failing source contributes the empty
list in its own field, and the other fields are unaffected. -/
theorem searchAll_fanout_spec (query : Str) (limit : Nat)
    (o1 : Fetch (Option (List RawBill))) (o2 : Fetch (Option (List RawFRDoc)))
    (o3 : CodeFetch) (o4 : Fetch (Option (List RawComment))) :
    searchAll query limit o1 o2 o3 o4 =
      { bills := searchBills query ((limit + 3) / 4) o1
        regulations := searchDocuments query ((limit + 3) / 4) o2
        codeSections := searchCode query ((limit + 3) / 4) o3
        comments := searchComments query ((limit + 3) / 4) o4 }
    ∧ ((limit + 3) / 4 : Nat) = ⌈(limit : ℚ) / 4⌉₊
    ∧ (∀ e, (searchAll query limit (Fetch.failure e) o2 o3 o4).bills = []
        ∧ (searchAll query limit (Fetch.failure e) o2 o3 o4).regulations
            = searchDocuments query ((limit + 3) / 4) o2
        ∧ (searchAll query limit (Fetch.failure e) o2 o3 o4).codeSections
            = searchCode query ((limit + 3) / 4) o3
        ∧ (searchAll query limit (Fetch.failure e) o2 o3 o4).comments
            = searchComments query ((limit + 3) / 4) o4)
    ∧ (∀ e, (searchAll query limit o1 (Fetch.failure e) o3 o4).regulations = [])
    ∧ (∀ e, (searchAll query limit o1 o2 (CodeFetch.failure e) o4).codeSections = [])
    ∧ (∀ e, (searchAll query limit o1 o2 o3 (Fetch.failure e)).comments = []) := by
  refine ⟨rfl, ?_, fun e => ⟨rfl, rfl, rfl, rfl⟩, fun e => rfl, fun e => rfl, fun e => rfl⟩
  rcases Nat.eq_zero_or_pos limit with h0 | hpos
  · subst h0
    simp
  · obtain ⟨m, hm⟩ : ∃ m, (limit + 3) / 4 = m + 1 :=
      ⟨(limit + 3) / 4 - 1, by omega⟩
    have h1 : m * 4 < limit := by omega
    have h2 : limit ≤ (m + 1) * 4 := by omega
    rw [hm]
    symm
    rw [Nat.ceil_eq_iff (by omega : m + 1 ≠ 0)]
    constructor
    · simp only [Nat.add_sub_cancel]
      rw [lt_div_iff (by norm_num : (0 : ℚ) < 4)]
      exact_mod_cast h1
    · rw [div_le_iff (by norm_num : (0 : ℚ) < 4)]
      exact_mod_cast h2

/-- C3, witness: at limit 20 the per-source limit is 5, and a failing
bills source leaves the bills field empty. -/
theorem searchAll_fanout_spec_witness :
    (searchAll [] 20 (Fetch.failure AxiosErr.timeout) (Fetch.failure AxiosErr.timeout)
      (CodeFetch.failure AxiosErr.timeout) (Fetch.failure AxiosErr.timeout)).bills = []
    ∧ ((20 + 3) / 4 : Nat) = 5 := by
  have h := searchAll_fanout_spec [] 20 (Fetch.failure AxiosErr.timeout)
    (Fetch.failure AxiosErr.timeout) (CodeFetch.failure AxiosErr.timeout)
    (Fetch.failure AxiosErr.timeout)
  exact ⟨(h.2.2.1 AxiosErr.timeout).1, by decide⟩

/-- C8, counterexample to the claim as stated: a record carrying both
conventions — camelCase `caseName = ""` and snake_case `case_name = "x"` —
normalizes to the snake_case value, because JS `||` treats the present but
empty camelCase value as falsy; the first convention is not preferred
whenever both are present. -/
theorem normalizeOpinion_empty_camel_cex :
    emptyCamelOpinion.caseName = some []
    ∧ emptyCamelOpinion.case_name = some "x".data
    ∧ (normalizeOpinion emptyCamelOpinion).case_name = some "x".data
    ∧ (normalizeOpinion emptyCamelOpinion).case_name ≠ emptyCamelOpinion.caseName :=
  ⟨by decide, by decide, by decide, by decide⟩

/-- C8, amended: each dual-named field is resolved by JS `||` — the
camelCase value wins when truthy (present and non-empty / non-zero),
otherwise the snake_case value is taken verbatim — and when neither URL
variant is truthy and the id is a truthy number, both `url` and
`absolute_url` are synthesized as
`https://www.courtlistener.com/opinion/<id>/`; `searchOpinions` and
`getRecentOpinions` both normalize every returned record with this map. -/
theorem normalizeOpinion_dual_naming (o : RawOpinion) :
    ((normalizeOpinion o).case_name = jsOrStr o.caseName o.case_name
      ∧ (normalizeOpinion o).case_name_full = jsOrStr o.caseNameFull o.case_name_full
      ∧ (normalizeOpinion o).date_filed = jsOrStr o.dateFiled o.date_filed
      ∧ (normalizeOpinion o).date_modified = jsOrStr o.dateModified o.date_modified
      ∧ (normalizeOpinion o).court = jsOrStr o.court o.court_name
      ∧ (normalizeOpinion o).court_id = jsOrInt o.courtId o.court_id
      ∧ (normalizeOpinion o).citation_count = jsOrInt o.citationCount o.citation_count
      ∧ (normalizeOpinion o).precedential_status
          = jsOrStr o.precedentialStatus o.precedential_status
      ∧ (normalizeOpinion o).download_url = jsOrStr o.downloadUrl o.download_url
      ∧ (normalizeOpinion o).plain_text = jsOrStr o.plainText o.plain_text
      ∧ (normalizeOpinion o).html_lawbox = jsOrStr o.htmlLawbox o.html_lawbox
      ∧ (normalizeOpinion o).html_columbia = jsOrStr o.htmlColumbia o.html_columbia
      ∧ (normalizeOpinion o).html_anon_2020 = jsOrStr o.htmlAnon2020 o.html_anon_2020
      ∧ (normalizeOpinion o).docket_number = jsOrStr o.docketNumber o.docket_number)
    ∧ (∀ a b : Option Str, strTruthy a = true → jsOrStr a b = a)
    ∧ (∀ a b : Option Str, strTruthy a = false → jsOrStr a b = b)
    ∧ (∀ a b : Option Int, intTruthy a = true → jsOrInt a b = a)
    ∧ (∀ a b : Option Int, intTruthy a = false → jsOrInt a b = b)
    ∧ (strTruthy o.absoluteUrl = false → strTruthy o.absolute_url = false →
        ∀ i : Int, o.id = some i → i ≠ 0 →
          (normalizeOpinion o).url = some (opinionUrlOf i)
          ∧ (normalizeOpinion o).absolute_url = some (opinionUrlOf i))
    ∧ (∀ (q : Str) (court : Option Str) (limit : Nat) (l : List RawOpinion),
        searchOpinions q court limit (Fetch.success (some l)) = l.map normalizeOpinion
        ∧ getRecentOpinions court limit (Fetch.success (some l)) = l.map normalizeOpinion) := by
  refine ⟨⟨rfl, rfl, rfl, rfl, rfl, rfl, rfl, rfl, rfl, rfl, rfl, rfl, rfl, rfl⟩,
    ?_, ?_, ?_, ?_, ?_, fun q court limit l => ⟨rfl, rfl⟩⟩
  · intro a b h
    simp [jsOrStr, h]
  · intro a b h
    simp [jsOrStr, h]
  · intro a b h
    simp [jsOrInt, h]
  · intro a b h
    simp [jsOrInt, h]
  · intro h1 h2 i hid hi
    have hbne : (i != 0) = true := by simpa using hi
    constructor <;>
      simp [normalizeOpinion, synthAbsoluteUrl, jsOrStr, h1, h2, hid, hbne]

/-- C8, witness: a record with only `caseName = "Roe v. Wade"` and id 7
normalizes to canonical `case_name = "Roe v. Wade"` with the synthesized
URL. -/
theorem normalizeOpinion_dual_naming_witness :
    (normalizeOpinion roeOpinion).case_name = some "Roe v. Wade".data
    ∧ (normalizeOpinion roeOpinion).url = some (opinionUrlOf 7) := by
  have h := normalizeOpinion_dual_naming roeOpinion
  constructor
  · rw [h.1.1, h.2.1 roeOpinion.caseName roeOpinion.case_name (by decide)]
    decide
  · exact (h.2.2.2.2.2.1 (by decide) (by decide) 7 (by decide) (by decide)).1

/-- C9, counterexample to the claim as stated: a raw opinion whose
string-typed fields are all absent normalizes to a record whose `url` and
`absolute_url` carry a string value absent from the original payload —
fabricated from the numeric id. -/
theorem normalizeOpinion_url_synthesis_cex :
    (rawOpinionStrFields idOnlyOpinion).all Option.isNone = true
    ∧ (normalizeOpinion idOnlyOpinion).url = some (opinionUrlOf 7)
    ∧ (normalizeOpinion idOnlyOpinion).absolute_url = some (opinionUrlOf 7) :=
  ⟨by decide, by decide, by decide⟩

/-- C9, amended: bill normalization copies each schema field from the
corresponding raw field — nothing fabricated, populated fields kept — and
opinion normalization draws every field value from one of the two raw
naming variants, except `url`/`absolute_url`, which may additionally be
synthesized from the record id; the `||` resolution never drops a dual
field populated under either convention. -/
theorem normalization_no_fabrication (r : RawBill) (o : RawOpinion) :
    ((normalizeBill r).congress = r.congress
      ∧ (normalizeBill r).type = r.type
      ∧ (normalizeBill r).number = r.number
      ∧ (normalizeBill r).title = r.title
      ∧ (normalizeBill r).shortTitle = r.shortTitle
      ∧ (normalizeBill r).summary = r.summary.bind RawSummary.text
      ∧ (normalizeBill r).url = r.url
      ∧ (normalizeBill r).introducedDate = r.introducedDate
      ∧ (normalizeBill r).latestAction
          = r.latestAction.map (fun la => ⟨la.actionDate, la.text⟩)
      ∧ (normalizeBill r).subjects = r.subjects)
    ∧ ((normalizeOpinion o).id = o.id
      ∧ ((normalizeOpinion o).case_name = o.caseName
          ∨ (normalizeOpinion o).case_name = o.case_name)
      ∧ ((normalizeOpinion o).court = o.court ∨ (normalizeOpinion o).court = o.court_name)
      ∧ ((normalizeOpinion o).court_id = o.courtId
          ∨ (normalizeOpinion o).court_id = o.court_id)
      ∧ (normalizeOpinion o).jurisdiction = o.jurisdiction
      ∧ (normalizeOpinion o).citation = o.citation
      ∧ (normalizeOpinion o).html = o.html
      ∧ (normalizeOpinion o).judges = o.judges
      ∧ (normalizeOpinion o).docket = o.docket
      ∧ (normalizeOpinion o).slug = o.slug
      ∧ ((normalizeOpinion o).url = o.absoluteUrl
          ∨ (normalizeOpinion o).url = o.absolute_url
          ∨ (∃ i : Int, o.id = some i ∧ (normalizeOpinion o).url = some (opinionUrlOf i))
          ∨ (normalizeOpinion o).url = none))
    ∧ (∀ a b : Option Str, jsOrStr a b = a ∨ jsOrStr a b = b)
    ∧ (∀ a b : Option Str, strTruthy (jsOrStr a b) = (strTruthy a || strTruthy b))
    ∧ (∀ a b : Option Int, intTruthy (jsOrInt a b) = (intTruthy a || intTruthy b)) := by
  have hjs : ∀ a b : Option Str, jsOrStr a b = a ∨ jsOrStr a b = b := by
    intro a b
    cases h : strTruthy a <;> simp [jsOrStr, h]
  refine ⟨⟨rfl, rfl, rfl, rfl, rfl, rfl, rfl, rfl, rfl, rfl⟩,
    ⟨rfl, hjs _ _, hjs _ _, ?_, rfl, rfl, rfl, rfl, rfl, rfl, ?_⟩, hjs, ?_, ?_⟩
  · cases h : intTruthy o.courtId <;> simp [normalizeOpinion, jsOrInt, h]
  · cases h1 : strTruthy o.absoluteUrl with
    | true =>
      left
      simp [normalizeOpinion, synthAbsoluteUrl, jsOrStr, h1]
    | false =>
      cases h2 : strTruthy o.absolute_url with
      | true =>
        right; left
        simp [normalizeOpinion, synthAbsoluteUrl, jsOrStr, h1, h2]
      | false =>
        cases hid : o.id with
        | none =>
          right; right; right
          simp [normalizeOpinion, synthAbsoluteUrl, jsOrStr, h1, h2, hid]
        | some i =>
          by_cases hz : i = 0
          · right; right; right
            simp [normalizeOpinion, synthAbsoluteUrl, jsOrStr, h1, h2, hid, hz]
          · right; right; left
            have hbne : (i != 0) = true := by simpa using hz
            exact ⟨i, rfl,
              by simp [normalizeOpinion, synthAbsoluteUrl, jsOrStr, h1, h2, hid, hbne]⟩
  · intro a b
    cases h : strTruthy a <;> simp [jsOrStr, h]
  · intro a b
    cases h : intTruthy a <;> simp [jsOrInt, h]
